import Mathlib

/-!
Verification of `commitizen/commands/init.py` (the `Init` wizard command).

The Python source is shallowly embedded below: pure decision logic becomes
Lean functions, interactive prompts become explicit function arguments
(the answer the user gave), file-system state becomes explicit values and
the external subprocess becomes an injected `run` function.  Python
exceptions (`KeyError`, `TypeError`, `AttributeError`, `ValueError`,
`NoAnswersError`) become `Except` results.
-/

/-- YAML-like structured values, as produced by `yaml.safe_load` for the
documents this command manipulates: strings, sequences and (ordered)
string-keyed mappings.  A `.pre-commit-config.yaml` document is the
`entries` list of a top-level `map`. -/
inductive Yaml where
  | str (s : String)
  | list (items : List Yaml)
  | map (entries : List (String × Yaml))

/-- Python `needle in hay` on strings: substring test.  `i` ranges over all
split positions of `hay`. -/
def strContains (hay needle : String) : Bool :=
  (List.range (hay.data.length + 1)).any fun i =>
    needle.data.isPrefixOf (hay.data.drop i)

/-- Python `s.startswith(pre)`. -/
def strStartsWith (s pre : String) : Bool :=
  pre.data.isPrefixOf s.data

/-- Python dict lookup `m[k]` on the association-list model of a dict
(`none` models a `KeyError`).  Dicts parsed from YAML have unique keys, so
first-match lookup is faithful. -/
def lookupKey (m : List (String × Yaml)) (k : String) : Option Yaml :=
  match m with
  | [] => none
  | (k', v) :: rest => if k' = k then some v else lookupKey rest k

/-- Python truthiness (`if yaml_data:`) of a parsed YAML value. -/
def truthy : Yaml → Bool
  | .str s => !(s == "")
  | .list l => !l.isEmpty
  | .map m => !m.isEmpty

/-- Python exceptions that the merge / install code can raise (unhandled). -/
inductive PyError where
  | keyError
  | typeError
  | attributeError
  | valueError
deriving Repr, DecidableEq

/-- Python `"commitizen" in pre_commit_hook["repo"]` for the possible value
shapes: substring test on a string, membership on a list, key membership on
a dict.  (All `Yaml` shapes support `in`, so this never raises.) -/
def pyContains (needle : String) : Yaml → Bool
  | .str s => strContains s needle
  | .list items => items.any fun y =>
      match y with
      | .str s => s == needle
      | _ => false
  | .map m => m.any fun kv => kv.1 == needle

/-- The `for pre_commit_hook in config_data["repos"]: if "commitizen" in
pre_commit_hook["repo"]: break / else: ...` scan of
`Init._install_pre_commit_hook` (init.py lines 162-165).  Returns
`.ok true` when the loop `break`s (an entry whose `repo` value contains
`"commitizen"` was found), `.ok false` when the loop falls through to its
`else`, and an error when Python would raise: `KeyError` for a mapping
entry without a `"repo"` key, `TypeError` for a non-mapping entry
(subscripting a str/list with the string `"repo"`). -/
def scanRepos : List Yaml → Except PyError Bool
  | [] => .ok false
  | .map m :: rest =>
    match lookupKey m "repo" with
    | some v => if pyContains "commitizen" v then .ok true else scanRepos rest
    | none => .error .keyError
  | .str _ :: _ => .error .typeError
  | .list _ :: _ => .error .typeError

/-- In-place mutation `config_data["repos"].append(...)` seen as a document
transform: the `"repos"` key keeps its position, its value is replaced. -/
def withRepos (cfg : List (String × Yaml)) (v : Yaml) : List (String × Yaml) :=
  cfg.map fun kv => if kv.1 = "repos" then ("repos", v) else kv

/-- The `cz_hook_config` dict literal of `Init._install_pre_commit_hook`
(init.py lines 142-149), parameterised by the tool version interpolated
into the `rev` field. -/
def cz_hook_config (version : String) : Yaml :=
  .map
    [("repo", .str "https://github.com/commitizen-tools/commitizen"),
     ("rev", .str ("v" ++ version)),
     ("hooks", .list
       [.map [("id", .str "commitizen")],
        .map [("id", .str "commitizen-branch"), ("stages", .list [.str "push"])]])]

/-- The state of `.pre-commit-config.yaml` when the merge starts:
`absent` when `os.path.isfile` is false, otherwise the `yaml.safe_load`
result (`none` models an empty file / YAML `null`). -/
inductive HookFile where
  | absent
  | present (parsed : Option Yaml)

/-- Result of the merge phase: the document that is serialized back to
`.pre-commit-config.yaml`, and whether the informational
"commitizen already in pre-commit config" notice was written. -/
structure MergeResult where
  doc : List (String × Yaml)
  notice : Bool

/-- The configuration-merging phase of `Init._install_pre_commit_hook`
(init.py lines 151-173), up to and including computing the document that
is serialized back to disk.

Branches, following the source:
* file absent → `config_data = {"repos": [cz_hook_config]}`;
* file present but `safe_load` result falsy → `config_data = {}`, then the
  no-`"repos"`-key branch applies;
* truthy non-mapping result → every continuation subscripts or
  item-assigns a str/list with the string key `"repos"`, a `TypeError`;
* mapping with a `"repos"` key holding a list → scan it (`scanRepos`);
  on a hit the document is left entirely unchanged, otherwise
  `cz_hook_config` is appended in place;
* mapping with a `"repos"` key holding a non-list → iterating it and
  subscripting its elements raises `TypeError` (or, for an empty str/dict,
  `.append` on it raises `AttributeError`);
* mapping without a `"repos"` key → the key is added (Python dict
  assignment appends a fresh key at the end of the insertion order). -/
def mergeHookConfig (file : HookFile) (entry : Yaml) : Except PyError MergeResult :=
  match file with
  | .absent => .ok ⟨[("repos", .list [entry])], false⟩
  | .present parsed =>
    match parsed with
    | none => .ok ⟨[("repos", .list [entry])], false⟩
    | some y =>
      if truthy y then
        match y with
        | .map cfg =>
          match lookupKey cfg "repos" with
          | some (.list entries) =>
            match scanRepos entries with
            | .error e => .error e
            | .ok true => .ok ⟨cfg, true⟩
            | .ok false => .ok ⟨withRepos cfg (.list (entries ++ [entry])), false⟩
          | some (.str s) => .error (if s == "" then .attributeError else .typeError)
          | some (.map m) => .error (if m.isEmpty then .attributeError else .typeError)
          | none => .ok ⟨cfg ++ [("repos", .list [entry])], false⟩
        | _ => .error .typeError
      else .ok ⟨[("repos", .list [entry])], false⟩

/-- Python falsiness of a prompt answer that is either a string or `None`
(`questionary.select(...).ask()` and friends): falsy when absent or empty. -/
def pyFalsy (a : Option String) : Bool :=
  match a with
  | none => true
  | some s => s == ""

/-- One run of `Init._ask_tag` (init.py lines 80-103): the returned tag or
the raised `NoAnswersError` message, together with whether the
"No Existing Tag. Set tag to v0.0.1" warning was emitted and whether the
list-selection prompt ("Please choose the latest tag: ") was shown. -/
structure AskTagRun where
  result : Except String String
  warned : Bool
  promptedSelect : Bool

/-- `Init._ask_tag`, with the external collaborators made explicit:
`latest_tag` is `get_latest_tag_name()`, `is_correct_tag` the confirmation
answer (`.ask()` may yield `None`; `if not is_correct_tag` treats it as a
declined confirmation, so a `Bool` is faithful), `tags` is
`get_tag_names()` and `selected` the answer to the list-selection prompt. -/
def ask_tag (latest_tag : Option String) (is_correct_tag : Bool)
    (tags : List String) (selected : Option String) : AskTagRun :=
  if pyFalsy latest_tag then
    ⟨.ok "0.0.1", true, false⟩
  else if !is_correct_tag then
    if tags.isEmpty then
      ⟨.ok "0.0.1", true, false⟩
    else if pyFalsy selected then
      ⟨.error "Tag is required!", false, true⟩
    else
      ⟨.ok (selected.getD ""), false, true⟩
  else
    ⟨.ok (latest_tag.getD ""), false, false⟩

/-- Modelled from the spec: the CLI surface (not part of the sources here)
maps an uncaught fatal error such as `NoAnswersError` to a non-zero
process exit status, and a completed wizard to exit status `0`. -/
def cliExitCode (result : Except String String) : Nat :=
  match result with
  | .error _ => 1
  | .ok _ => 0

/-- One run of `Init._ask_tag_format` (init.py lines 105-121): the returned
template and whether the free-form text prompt ("Please enter the correct
version format:") was invoked. -/
structure AskTagFormatRun where
  result : String
  promptedText : Bool

/-- `Init._ask_tag_format`: `confirm_answer` is the answer to the
`Is "v$version" the correct tag format?` confirmation (only consulted when
the tag starts with `v`; a `None` answer is falsy, so `Bool` is faithful),
`entered` the free-form text answer when that prompt is reached. -/
def ask_tag_format (latest_tag : String) (confirm_answer : Bool)
    (entered : Option String) : AskTagFormatRun :=
  if strStartsWith latest_tag "v" && confirm_answer then
    ⟨"v$version", false⟩
  else
    match entered with
    | none => ⟨"$version", true⟩
    | some s => if s == "" then ⟨"$version", true⟩ else ⟨s, true⟩

/-- Result of `cmd.run`: exit status and captured output streams of the
external subprocess. -/
structure CmdResult where
  return_code : Int
  out : String
  err : String

/-- Python `"".join`, as used to build the install command line. -/
def strJoin : List String → String
  | [] => ""
  | s :: rest => s ++ strJoin rest

/-- One run of `Init._exec_install_pre_commit_hook`: the command line
passed to `cmd.run`, the `out.error` lines surfaced on failure, and the
returned boolean. -/
structure ExecHookRun where
  cmd_str : String
  surfaced : List String
  result : Bool

/-- `Init._exec_install_pre_commit_hook` (init.py lines 126-138), with the
subprocess injected as `run`.  An empty `hook_types` raises `ValueError`;
otherwise the single command line
`"pre-commit install " + "".join(f"--hook-type \x7bty\x7d" ...)` is run,
and on a non-zero exit status the stdout/stderr are surfaced and `False`
is returned. -/
def exec_install_pre_commit_hook (run : String → CmdResult)
    (hook_types : List String) : Except PyError ExecHookRun :=
  if hook_types.isEmpty then .error .valueError
  else
    let cmd_str :=
      "pre-commit install " ++ strJoin (hook_types.map fun ty => "--hook-type " ++ ty)
    let c := run cmd_str
    if c.return_code != 0 then
      .ok ⟨cmd_str,
        ["Error running " ++ cmd_str ++ ". Outputs are attached below:",
         "stdout: " ++ c.out, "stderr: " ++ c.err], false⟩
    else
      .ok ⟨cmd_str, [], true⟩

/-- One run of `Init._install_pre_commit_hook`: the document written to
`.pre-commit-config.yaml` (the write happens before the executable check),
and the returned boolean. -/
structure InstallRun where
  written : List (String × Yaml)
  result : Bool

/-- `Init._install_pre_commit_hook` (init.py lines 140-185):
merge the configuration, serialize it back to disk, then check
`shutil.which("pre-commit")` (`pre_commit_found`), then run the install
command.  The serialization to disk happens before either failure check,
which is what `InstallRun.written` records. -/
def install_pre_commit_hook (file : HookFile) (entry : Yaml)
    (hook_types : Option (List String)) (pre_commit_found : Bool)
    (run : String → CmdResult) : Except PyError InstallRun :=
  match mergeHookConfig file entry with
  | .error e => .error e
  | .ok m =>
    if !pre_commit_found then .ok ⟨m.doc, false⟩
    else
      match exec_install_pre_commit_hook run (hook_types.getD ["commit-msg", "pre-push"]) with
      | .error e => .error e
      | .ok ex => .ok ⟨m.doc, ex.result⟩

/-- The configuration-document kinds recognised by `Init.__call__`. -/
inductive ConfigKind where
  | toml
  | json
  | yaml
deriving Repr, DecidableEq

/-- Python dict assignment `d[k] = v` on the insertion-ordered model:
replace in place when the key exists, append otherwise. -/
def dictSet (d : List (String × String)) (k v : String) : List (String × String) :=
  if d.any fun kv => kv.1 == k then
    d.map fun kv => if kv.1 = k then (k, v) else kv
  else d ++ [(k, v)]

/-- One run of the bootstrap phase of `Init.__call__`: the chosen document
kind and the ordered `set_key` trace that `Init._update_config_file`
performs (one call per `values_to_add` item, in insertion order). -/
structure BootstrapRun where
  kind : Option ConfigKind
  set_key_trace : List (String × String)

/-- The bootstrap phase of `Init.__call__` (init.py lines 29-43) together
with `Init._update_config_file` (lines 187-189): select the document kind
by substring of the chosen path (an `if/elif` chain, so `toml` wins over
`json` wins over `yaml`; `none` models the fall-through where no new
config object is constructed), build `values_to_add` by successive dict
assignments, and hand its items in order to `set_key`.  `publicVersion`
is the external version parser's `Version(tag).public`. -/
def init_bootstrap (config_path : String) (name : String) (tag : String)
    (publicVersion : String → String) (tag_format : String) : BootstrapRun :=
  let kind :=
    if strContains config_path "toml" then some ConfigKind.toml
    else if strContains config_path "json" then some ConfigKind.json
    else if strContains config_path "yaml" then some ConfigKind.yaml
    else none
  let values_to_add :=
    dictSet (dictSet (dictSet [] "name" name) "version" (publicVersion tag))
      "tag_format" tag_format
  ⟨kind, values_to_add⟩

/-- Modelled from the spec: the external version parser
(`packaging.version.Version(tag).public`, not part of the sources here)
derives the public version "by stripping any non-numeric prefix" from the
tag, failing on input that is not a valid dotted numeric version. -/
def parsePublicVersion (tag : String) : Option String :=
  let rest := tag.data.dropWhile fun c => !c.isDigit
  if rest.isEmpty then none
  else if rest.all fun c => c.isDigit || c == '.' then some (String.mk rest)
  else none

/-- A well-formed hook entry in the spec's sense: a mapping that carries
the canonical-identifier key `"repo"`. -/
def isWellFormedEntry : Yaml → Bool
  | .map m => (lookupKey m "repo").isSome
  | _ => false

/-- Whether a hook entry is recognised as the tool's own: its `"repo"`
value contains the identifying substring `"commitizen"`. -/
def entryMatches : Yaml → Bool
  | .map m =>
    match lookupKey m "repo" with
    | some v => pyContains "commitizen" v
    | none => false
  | _ => false

/-- The Python exception the `repos` scan raises when it reaches a given
entry, if any: `KeyError` for a mapping without a `"repo"` key,
`TypeError` for a non-mapping element. -/
def entryScanError : Yaml → Option PyError
  | .map m =>
    match lookupKey m "repo" with
    | some _ => none
    | none => some PyError.keyError
  | _ => some PyError.typeError

/-! ### Helper lemmas -/

theorem lookupKey_ne_nil {m : List (String × Yaml)} {k : String} {v : Yaml}
    (h : lookupKey m k = some v) : m ≠ [] := by
  intro hnil
  subst hnil
  simp [lookupKey] at h

theorem lookupKey_withRepos_self {cfg : List (String × Yaml)} {w : Yaml} (v : Yaml)
    (h : lookupKey cfg "repos" = some w) :
    lookupKey (withRepos cfg v) "repos" = some v := by
  induction cfg with
  | nil => simp [lookupKey] at h
  | cons hd tl ih =>
    obtain ⟨a, b⟩ := hd
    by_cases hk : a = "repos"
    · subst hk
      simp [withRepos, lookupKey]
    · have hmap : withRepos ((a, b) :: tl) v = (a, b) :: withRepos tl v := by
        simp [withRepos, hk]
      rw [hmap]
      simp only [lookupKey, hk, if_false] at h ⊢
      exact ih h

theorem lookupKey_withRepos_ne (cfg : List (String × Yaml)) (v : Yaml) (k : String)
    (h : k ≠ "repos") : lookupKey (withRepos cfg v) k = lookupKey cfg k := by
  induction cfg with
  | nil => rfl
  | cons hd tl ih =>
    obtain ⟨a, b⟩ := hd
    by_cases hk : a = "repos"
    · subst hk
      have hmap : withRepos (("repos", b) :: tl) v = ("repos", v) :: withRepos tl v := by
        simp [withRepos]
      rw [hmap]
      have h2 : ¬ ("repos" = k) := fun hh => h hh.symm
      simp only [lookupKey, h2, if_false]
      exact ih
    · have hmap : withRepos ((a, b) :: tl) v = (a, b) :: withRepos tl v := by
        simp [withRepos, hk]
      rw [hmap]
      by_cases hak : a = k
      · simp [lookupKey, hak]
      · simp only [lookupKey, hak, if_false]
        exact ih

theorem keys_withRepos (cfg : List (String × Yaml)) (v : Yaml) :
    (withRepos cfg v).map Prod.fst = cfg.map Prod.fst := by
  induction cfg with
  | nil => rfl
  | cons hd tl ih =>
    obtain ⟨a, b⟩ := hd
    by_cases hk : a = "repos"
    · subst hk
      have hmap : withRepos (("repos", b) :: tl) v = ("repos", v) :: withRepos tl v := by
        simp [withRepos]
      rw [hmap]
      simp only [List.map_cons]
      rw [ih]
    · have hmap : withRepos ((a, b) :: tl) v = (a, b) :: withRepos tl v := by
        simp [withRepos, hk]
      rw [hmap]
      simp only [List.map_cons]
      rw [ih]

theorem lookupKey_append_of_none {cfg : List (String × Yaml)} {k : String}
    (h : lookupKey cfg k = none) (rest : List (String × Yaml)) :
    lookupKey (cfg ++ rest) k = lookupKey rest k := by
  induction cfg with
  | nil => rfl
  | cons hd tl ih =>
    obtain ⟨a, b⟩ := hd
    by_cases hk : a = k
    · simp [lookupKey, hk] at h
    · simp only [List.cons_append, lookupKey, hk, if_false] at h ⊢
      exact ih h

theorem scanRepos_append_of_ok_false {es : List Yaml}
    (h : scanRepos es = .ok false) (es₂ : List Yaml) :
    scanRepos (es ++ es₂) = scanRepos es₂ := by
  induction es with
  | nil => rfl
  | cons e rest ih =>
    cases e with
    | map m =>
      simp only [scanRepos] at h
      simp only [List.cons_append, scanRepos]
      cases hrepo : lookupKey m "repo" with
      | some v =>
        rw [hrepo] at h
        by_cases hc : pyContains "commitizen" v
        · simp [hc] at h
        · simp only [hc, Bool.false_eq_true, if_false] at h ⊢
          exact ih h
      | none =>
        rw [hrepo] at h
        simp at h
    | str s => simp [scanRepos] at h
    | list l => simp [scanRepos] at h

theorem scanRepos_of_no_match {es : List Yaml}
    (hw : ∀ e ∈ es, isWellFormedEntry e = true)
    (hm : ∀ e ∈ es, entryMatches e = false) :
    scanRepos es = .ok false := by
  induction es with
  | nil => rfl
  | cons e rest ih =>
    have hwe := hw e (List.mem_cons_self e rest)
    have hme := hm e (List.mem_cons_self e rest)
    have hw' : ∀ x ∈ rest, isWellFormedEntry x = true :=
      fun x hx => hw x (List.mem_cons_of_mem e hx)
    have hm' : ∀ x ∈ rest, entryMatches x = false :=
      fun x hx => hm x (List.mem_cons_of_mem e hx)
    cases e with
    | map m =>
      rw [isWellFormedEntry, Option.isSome_iff_exists] at hwe
      obtain ⟨v, hv⟩ := hwe
      have hme' : pyContains "commitizen" v = false := by
        rw [entryMatches, hv] at hme
        exact hme
      simp only [scanRepos, hv, hme', Bool.false_eq_true, if_false]
      exact ih hw' hm'
    | str s => simp [isWellFormedEntry] at hwe
    | list l => simp [isWellFormedEntry] at hwe

theorem scanRepos_cz (ver : String) (rest : List Yaml) :
    scanRepos (cz_hook_config ver :: rest) = .ok true := rfl

theorem merge_found {cfg : List (String × Yaml)} {es : List Yaml}
    (h1 : lookupKey cfg "repos" = some (.list es)) (h2 : scanRepos es = .ok true)
    (e : Yaml) :
    mergeHookConfig (.present (some (.map cfg))) e = .ok ⟨cfg, true⟩ := by
  cases cfg with
  | nil => simp [lookupKey] at h1
  | cons hd tl =>
    simp only [mergeHookConfig, truthy, List.isEmpty_cons, Bool.not_false, if_true]
    simp only [h1, h2]

theorem merge_append_shape {cfg : List (String × Yaml)} {es : List Yaml}
    (h1 : lookupKey cfg "repos" = some (.list es)) (h2 : scanRepos es = .ok false)
    (e : Yaml) :
    mergeHookConfig (.present (some (.map cfg))) e
      = .ok ⟨withRepos cfg (.list (es ++ [e])), false⟩ := by
  cases cfg with
  | nil => simp [lookupKey] at h1
  | cons hd tl =>
    simp only [mergeHookConfig, truthy, List.isEmpty_cons, Bool.not_false, if_true]
    simp only [h1, h2]

theorem merge_scan_error_shape {cfg : List (String × Yaml)} {es : List Yaml} {err : PyError}
    (h1 : lookupKey cfg "repos" = some (.list es)) (h2 : scanRepos es = .error err)
    (e : Yaml) :
    mergeHookConfig (.present (some (.map cfg))) e = .error err := by
  cases cfg with
  | nil => simp [lookupKey] at h1
  | cons hd tl =>
    simp only [mergeHookConfig, truthy, List.isEmpty_cons, Bool.not_false, if_true]
    simp only [h1, h2]

theorem merge_no_repos_shape {cfg : List (String × Yaml)}
    (h : lookupKey cfg "repos" = none) (e : Yaml) :
    mergeHookConfig (.present (some (.map cfg))) e
      = .ok ⟨cfg ++ [("repos", .list [e])], false⟩ := by
  cases cfg with
  | nil => rfl
  | cons hd tl =>
    simp only [mergeHookConfig, truthy, List.isEmpty_cons, Bool.not_false, if_true]
    simp only [h]

theorem merged_doc_has_match (ver : String) (f : HookFile) (r : MergeResult)
    (h : mergeHookConfig f (cz_hook_config ver) = .ok r) :
    ∃ es, lookupKey r.doc "repos" = some (.list es) ∧ scanRepos es = .ok true := by
  have base : ∃ es, lookupKey [("repos", Yaml.list [cz_hook_config ver])] "repos"
      = some (.list es) ∧ scanRepos es = .ok true :=
    ⟨[cz_hook_config ver], rfl, scanRepos_cz ver []⟩
  cases f with
  | absent =>
    simp only [mergeHookConfig, Except.ok.injEq] at h
    rw [← h]
    exact base
  | present parsed =>
    cases parsed with
    | none =>
      simp only [mergeHookConfig, Except.ok.injEq] at h
      rw [← h]
      exact base
    | some y =>
      cases y with
      | str s =>
        by_cases ht : truthy (.str s)
        · simp [mergeHookConfig, ht] at h
        · simp only [mergeHookConfig, ht, Bool.false_eq_true, if_false,
            Except.ok.injEq] at h
          rw [← h]
          exact base
      | list l =>
        by_cases ht : truthy (.list l)
        · simp [mergeHookConfig, ht] at h
        · simp only [mergeHookConfig, ht, Bool.false_eq_true, if_false,
            Except.ok.injEq] at h
          rw [← h]
          exact base
      | map cfg =>
        cases cfg with
        | nil =>
          simp only [mergeHookConfig, truthy, List.isEmpty_nil, Bool.not_true,
            Bool.false_eq_true, if_false, Except.ok.injEq] at h
          rw [← h]
          exact base
        | cons hd tl =>
          rw [mergeHookConfig] at h
          simp only [truthy, List.isEmpty_cons, Bool.not_false, if_true] at h
          cases hr : lookupKey (hd :: tl) "repos" with
          | none =>
            simp only [hr, Except.ok.injEq] at h
            rw [← h]
            refine ⟨[cz_hook_config ver], ?_, scanRepos_cz ver []⟩
            rw [lookupKey_append_of_none hr]
            rfl
          | some v =>
            cases v with
            | str s => simp [hr] at h
            | map m => simp [hr] at h
            | list entries =>
              simp only [hr] at h
              cases hs : scanRepos entries with
              | error err => simp [hs] at h
              | ok b =>
                cases b with
                | true =>
                  simp only [hs, Except.ok.injEq] at h
                  rw [← h]
                  exact ⟨entries, hr, hs⟩
                | false =>
                  simp only [hs, Except.ok.injEq] at h
                  rw [← h]
                  refine ⟨entries ++ [cz_hook_config ver], ?_, ?_⟩
                  · exact lookupKey_withRepos_self _ hr
                  · rw [scanRepos_append_of_ok_false hs]
                    exact scanRepos_cz ver []

/-- C1: merging the canonical hook entry is idempotent.  Whenever
`Init._install_pre_commit_hook`'s merge phase succeeds and produces a
document `r.doc` (which is what gets written to `.pre-commit-config.yaml`),
merging the canonical entry into that document again returns it
content-identical: the entry list is left entirely unchanged (no duplicate
appended, the `rev` of the already-present entry not updated) and only the
informational notice is emitted. -/
theorem merge_idempotent (ver : String) (f : HookFile) (r : MergeResult)
    (h : mergeHookConfig f (cz_hook_config ver) = .ok r) :
    mergeHookConfig (.present (some (.map r.doc))) (cz_hook_config ver)
      = .ok ⟨r.doc, true⟩ := by
  obtain ⟨es, h1, h2⟩ := merged_doc_has_match ver f r h
  exact merge_found h1 h2 _

/-- Witness for C1: a concrete five-line pre-commit config that already
has one unrelated entry; the first merge appends the canonical entry, the
second leaves the document unchanged. -/
theorem merge_idempotent_witness :
    mergeHookConfig
      (.present (some (.map
        [("fail_fast", .str "true"),
         ("repos", .list
           [.map [("repo", .str "https://github.com/psf/black"),
                  ("rev", .str "22.3.0")],
            cz_hook_config "2.42.0"])])))
      (cz_hook_config "2.42.0")
    = .ok ⟨[("fail_fast", .str "true"),
            ("repos", .list
              [.map [("repo", .str "https://github.com/psf/black"),
                     ("rev", .str "22.3.0")],
               cz_hook_config "2.42.0"])], true⟩ :=
  merge_idempotent "2.42.0"
    (.present (some (.map
      [("fail_fast", .str "true"),
       ("repos", .list
         [.map [("repo", .str "https://github.com/psf/black"),
                ("rev", .str "22.3.0")]])])))
    ⟨[("fail_fast", .str "true"),
      ("repos", .list
        [.map [("repo", .str "https://github.com/psf/black"),
               ("rev", .str "22.3.0")],
         cz_hook_config "2.42.0"])], false⟩
    rfl

/-- C2: effect and frame of the merge on an existing document.  If the
parsed document has no `"repos"` key, the key is added at the end with
exactly the canonical entry and every pre-existing key/value pair is kept
verbatim (they form the unchanged prefix).  If it has a `"repos"` list of
well-formed entries none of which matches the tool's identifier substring,
the canonical entry is appended at the end of that list (prior entries
unchanged and in order), the top-level key sequence is unchanged, and
every key other than `"repos"` still maps to its old value. -/
theorem merge_frame (E : Yaml) (cfg : List (String × Yaml)) :
    (lookupKey cfg "repos" = none →
      mergeHookConfig (.present (some (.map cfg))) E
        = .ok ⟨cfg ++ [("repos", .list [E])], false⟩) ∧
    (∀ entries, lookupKey cfg "repos" = some (.list entries) →
      (∀ e ∈ entries, isWellFormedEntry e = true) →
      (∀ e ∈ entries, entryMatches e = false) →
      mergeHookConfig (.present (some (.map cfg))) E
          = .ok ⟨withRepos cfg (.list (entries ++ [E])), false⟩ ∧
        (withRepos cfg (.list (entries ++ [E]))).map Prod.fst = cfg.map Prod.fst ∧
        ∀ k, k ≠ "repos" →
          lookupKey (withRepos cfg (.list (entries ++ [E]))) k = lookupKey cfg k) := by
  constructor
  · intro h
    exact merge_no_repos_shape h E
  · intro entries hr hw hm
    have hs := scanRepos_of_no_match hw hm
    exact ⟨merge_append_shape hr hs E, keys_withRepos cfg _,
      fun k hk => lookupKey_withRepos_ne cfg _ k hk⟩

/-- Witness for C2: a document with only an unrelated key gets `repos`
added after it; a document with an unrelated key and one non-matching
entry gets the canonical entry appended while the unrelated key survives. -/
theorem merge_frame_witness :
    (mergeHookConfig (.present (some (.map [("fail_fast", .str "true")])))
        (cz_hook_config "2.42.0")
      = .ok ⟨[("fail_fast", .str "true"),
              ("repos", .list [cz_hook_config "2.42.0"])], false⟩) ∧
    (mergeHookConfig
        (.present (some (.map
          [("default_stages", .str "commit"),
           ("repos", .list
             [.map [("repo", .str "https://github.com/psf/black"),
                    ("rev", .str "22.3.0")]])])))
        (cz_hook_config "2.42.0")
      = .ok ⟨[("default_stages", .str "commit"),
              ("repos", .list
                [.map [("repo", .str "https://github.com/psf/black"),
                       ("rev", .str "22.3.0")],
                 cz_hook_config "2.42.0"])], false⟩) ∧
    lookupKey
      (withRepos
        [("default_stages", .str "commit"),
         ("repos", .list
           [.map [("repo", .str "https://github.com/psf/black"),
                  ("rev", .str "22.3.0")]])]
        (.list
          ([.map [("repo", .str "https://github.com/psf/black"),
                  ("rev", .str "22.3.0")]] ++ [cz_hook_config "2.42.0"])))
      "default_stages"
      = lookupKey
          [("default_stages", .str "commit"),
           ("repos", .list
             [.map [("repo", .str "https://github.com/psf/black"),
                    ("rev", .str "22.3.0")]])] "default_stages" := by
  have h2 := (merge_frame (cz_hook_config "2.42.0")
    [("default_stages", .str "commit"),
     ("repos", .list
       [.map [("repo", .str "https://github.com/psf/black"),
              ("rev", .str "22.3.0")]])]).2
    [.map [("repo", .str "https://github.com/psf/black"), ("rev", .str "22.3.0")]]
    rfl (by decide) (by decide)
  exact ⟨(merge_frame (cz_hook_config "2.42.0") [("fail_fast", .str "true")]).1 rfl,
    h2.1, h2.2.2 "default_stages" (by decide)⟩

/-- C9 (counterexample to the claim as stated): a document whose `repos`
list does contain a non-mapping element, yet the merge succeeds, because a
matching entry earlier in the list makes the scan `break` before the
malformed element is ever examined. -/
theorem merge_malformed_counterexample :
    mergeHookConfig
      (.present (some (.map [("repos", .list [cz_hook_config "2.42.0", .str "oops"])])))
      (cz_hook_config "2.42.0")
    = .ok ⟨[("repos", .list [cz_hook_config "2.42.0", .str "oops"])], true⟩ := rfl

/-- C9 (amended): the merge is not total over malformed documents — when
the scan reaches a malformed element (every entry before it is scanned
without a match), it raises an unhandled error (`KeyError` for a mapping
lacking the `"repo"` key, `TypeError` for a non-mapping element) instead
of producing a merged document. -/
theorem merge_malformed_errors (E : Yaml) (cfg : List (String × Yaml))
    (es₁ : List Yaml) (e : Yaml) (es₂ : List Yaml) (err : PyError)
    (hr : lookupKey cfg "repos" = some (.list (es₁ ++ e :: es₂)))
    (h1 : scanRepos es₁ = .ok false)
    (he : entryScanError e = some err) :
    mergeHookConfig (.present (some (.map cfg))) E = .error err := by
  have hs : scanRepos (es₁ ++ e :: es₂) = .error err := by
    rw [scanRepos_append_of_ok_false h1]
    cases e with
    | map m =>
      simp only [entryScanError] at he
      cases hv : lookupKey m "repo" with
      | some v => rw [hv] at he; simp at he
      | none =>
        rw [hv] at he
        simp only [Option.some.injEq] at he
        rw [← he]
        simp [scanRepos, hv]
    | str s =>
      simp only [entryScanError, Option.some.injEq] at he
      rw [← he]
      rfl
    | list l =>
      simp only [entryScanError, Option.some.injEq] at he
      rw [← he]
      rfl
  exact merge_scan_error_shape hr hs E

/-- Witness for the amended C9: a non-mapping element reached first raises
`TypeError`; a mapping without `"repo"` reached first raises `KeyError`. -/
theorem merge_malformed_errors_witness :
    mergeHookConfig
      (.present (some (.map
        [("repos", .list
          [.map [("repo", .str "https://github.com/psf/black"),
                 ("rev", .str "22.3.0")],
           .str "oops"])])))
      (cz_hook_config "2.42.0")
      = .error .typeError ∧
    mergeHookConfig
      (.present (some (.map [("repos", .list [.map [("hooks", .list [])]])])))
      (cz_hook_config "2.42.0")
      = .error .keyError :=
  ⟨merge_malformed_errors (cz_hook_config "2.42.0")
    [("repos", .list
      [.map [("repo", .str "https://github.com/psf/black"), ("rev", .str "22.3.0")],
       .str "oops"])]
    [.map [("repo", .str "https://github.com/psf/black"), ("rev", .str "22.3.0")]]
    (.str "oops") [] .typeError rfl rfl rfl,
   merge_malformed_errors (cz_hook_config "2.42.0")
    [("repos", .list [.map [("hooks", .list [])]])]
    [] (.map [("hooks", .list [])]) [] .keyError rfl rfl rfl⟩

/-- C3: whenever the available tag set is empty — no latest tag at the
first query, or an empty re-enumeration after a declined confirmation —
`Init._ask_tag` returns exactly `"0.0.1"` (no leading prefix), emits the
warning, and never shows the list-selection prompt. -/
theorem ask_tag_empty_default :
    (∀ (lt : Option String) (c : Bool) (tags : List String) (sel : Option String),
      pyFalsy lt = true →
      ask_tag lt c tags sel = ⟨.ok "0.0.1", true, false⟩) ∧
    (∀ (lt : Option String) (tags : List String) (sel : Option String),
      pyFalsy lt = false → tags = [] →
      ask_tag lt false tags sel = ⟨.ok "0.0.1", true, false⟩) := by
  constructor
  · intro lt c tags sel h
    simp [ask_tag, h]
  · intro lt tags sel h1 h2
    subst h2
    simp [ask_tag, h1]

/-- Witness for C3: no latest tag at all, and a declined confirmation with
an empty re-enumeration, both yield `"0.0.1"` with the warning and no
selection prompt. -/
theorem ask_tag_empty_default_witness :
    ask_tag none true ["v1.0.0"] (some "x") = ⟨.ok "0.0.1", true, false⟩ ∧
    ask_tag (some "v1.0.0") false [] (some "x") = ⟨.ok "0.0.1", true, false⟩ :=
  ⟨ask_tag_empty_default.1 none true ["v1.0.0"] (some "x") rfl,
   ask_tag_empty_default.2 (some "v1.0.0") [] (some "x") rfl rfl⟩

/-- C4: with a declined confirmation, a non-empty re-enumerated tag list
and no selection made, `Init._ask_tag` raises `NoAnswersError` with
message "Tag is required!" after showing the selection prompt; no default
is substituted, and (modelled from the spec) the uncaught error yields a
non-zero exit status. -/
theorem ask_tag_no_answer_fatal (lt : Option String) (tags : List String)
    (sel : Option String) (h1 : pyFalsy lt = false) (h2 : tags ≠ [])
    (h3 : pyFalsy sel = true) :
    ask_tag lt false tags sel = ⟨.error "Tag is required!", false, true⟩ ∧
    cliExitCode (ask_tag lt false tags sel).result ≠ 0 := by
  have hne : tags.isEmpty = false := by
    cases tags with
    | nil => exact absurd rfl h2
    | cons a l => rfl
  constructor
  · simp [ask_tag, h1, hne, h3]
  · simp [ask_tag, h1, hne, h3, cliExitCode]

/-- Witness for C4. -/
theorem ask_tag_no_answer_fatal_witness :
    ask_tag (some "v1.0.0") false ["v1.0.0", "v0.9.0"] none
      = ⟨.error "Tag is required!", false, true⟩ ∧
    cliExitCode (ask_tag (some "v1.0.0") false ["v1.0.0", "v0.9.0"] none).result ≠ 0 :=
  ask_tag_no_answer_fatal (some "v1.0.0") ["v1.0.0", "v0.9.0"] none
    rfl (by decide) rfl

/-- C6: whenever the free-form template prompt is actually reached, an
empty or absent answer yields exactly `"$version"`, and any non-empty
answer is returned exactly as entered — no validation for placeholder
presence is performed. -/
theorem ask_tag_format_freeform (tag : String) (confirm : Bool)
    (entered : Option String)
    (hp : (ask_tag_format tag confirm entered).promptedText = true) :
    (pyFalsy entered = true →
      (ask_tag_format tag confirm entered).result = "$version") ∧
    (∀ s, entered = some s → s ≠ "" →
      (ask_tag_format tag confirm entered).result = s) := by
  by_cases hg : strStartsWith tag "v" && confirm
  · simp [ask_tag_format, hg] at hp
  · constructor
    · intro hf
      cases entered with
      | none => simp [ask_tag_format, hg]
      | some s =>
        have hs : s = "" := by simpa [pyFalsy] using hf
        subst hs
        simp [ask_tag_format, hg]
    · intro s hs hne
      subst hs
      have hbe : (s == "") = false := by simpa using hne
      simp [ask_tag_format, hg, hbe]

/-- Witness for C6: tag without a `v` prefix, so the free-form prompt is
reached; an absent answer yields `"$version"` and the answer `"release"`
(which contains no placeholder token) is returned verbatim. -/
theorem ask_tag_format_freeform_witness :
    (ask_tag_format "1.2.3" false none).result = "$version" ∧
    (ask_tag_format "1.2.3" false (some "release")).result = "release" :=
  ⟨(ask_tag_format_freeform "1.2.3" false none rfl).1 rfl,
   (ask_tag_format_freeform "1.2.3" false (some "release") rfl).2 "release" rfl
     (by decide)⟩

/-- C7: for a tag starting with `v` and an accepted confirmation,
`Init._ask_tag_format` returns exactly `"v$version"` and never invokes the
free-form prompt. -/
theorem ask_tag_format_v_confirmed (tag : String) (entered : Option String)
    (h : strStartsWith tag "v" = true) :
    ask_tag_format tag true entered = ⟨"v$version", false⟩ := by
  simp [ask_tag_format, h]

/-- Witness for C7. -/
theorem ask_tag_format_v_confirmed_witness :
    ask_tag_format "v2.3.0" true (some "ignored") = ⟨"v$version", false⟩ :=
  ask_tag_format_v_confirmed "v2.3.0" (some "ignored") rfl

theorem string_data_append (a b : String) : (a ++ b).data = a.data ++ b.data := by
  cases a
  cases b
  rfl

theorem strContains_of_infix {hay needle : String}
    (h : needle.data <:+: hay.data) : strContains hay needle = true := by
  obtain ⟨s, t, hst⟩ := h
  rw [strContains, List.any_eq_true]
  refine ⟨s.length, ?_, ?_⟩
  · rw [List.mem_range]
    have hlen : hay.data.length = s.length + (needle.data.length + t.length) := by
      rw [← hst]
      simp [List.length_append]
    omega
  · rw [← hst, List.append_assoc, List.drop_left, List.isPrefixOf_iff_prefix]
    exact List.prefix_append _ _

theorem strStartsWith_append (a b : String) : strStartsWith (a ++ b) a = true := by
  rw [strStartsWith, string_data_append, List.isPrefixOf_iff_prefix]
  exact List.prefix_append _ _

theorem infix_strJoin {p : String} {pieces : List String} (h : p ∈ pieces) :
    p.data <:+: (strJoin pieces).data := by
  induction pieces with
  | nil => cases h
  | cons q rest ih =>
    rcases List.mem_cons.mp h with rfl | hmem
    · exact ⟨[], (strJoin rest).data, by simp [strJoin, string_data_append]⟩
    · obtain ⟨s, t, hst⟩ := ih hmem
      refine ⟨q.data ++ s, t, ?_⟩
      show q.data ++ s ++ p.data ++ t = (strJoin (q :: rest)).data
      rw [strJoin, string_data_append, ← hst]
      simp [List.append_assoc]

theorem infix_append_left {l l₁ l₂ : List Char} (h : l <:+: l₂) :
    l <:+: l₁ ++ l₂ := by
  obtain ⟨s, t, hst⟩ := h
  exact ⟨l₁ ++ s, t, by rw [← hst]; simp [List.append_assoc]⟩

/-- C5: for every non-empty hook-type selection, the external hook manager
is invoked with a single command line that starts with
`pre-commit install ` and contains `--hook-type <type>` for each selected
type; the step reports success exactly when the invocation's exit status
is zero, and on a non-zero status the captured stdout and stderr are
surfaced in the error output. -/
theorem exec_install_cmdline (run : String → CmdResult) (hook_types : List String)
    (r : ExecHookRun) (hne : hook_types ≠ [])
    (h : exec_install_pre_commit_hook run hook_types = .ok r) :
    strStartsWith r.cmd_str "pre-commit install " = true ∧
    (∀ ty ∈ hook_types, strContains r.cmd_str ("--hook-type " ++ ty) = true) ∧
    (r.result = true ↔ (run r.cmd_str).return_code = 0) ∧
    ((run r.cmd_str).return_code ≠ 0 →
      r.surfaced
        = ["Error running " ++ r.cmd_str ++ ". Outputs are attached below:",
           "stdout: " ++ (run r.cmd_str).out,
           "stderr: " ++ (run r.cmd_str).err]) := by
  have hE : hook_types.isEmpty = false := by
    cases hook_types with
    | nil => exact absurd rfl hne
    | cons a l => rfl
  have hsub : ∀ ty ∈ hook_types,
      strContains
        ("pre-commit install "
          ++ strJoin (hook_types.map fun ty => "--hook-type " ++ ty))
        ("--hook-type " ++ ty) = true := by
    intro ty hty
    apply strContains_of_infix
    rw [string_data_append]
    exact infix_append_left
      (infix_strJoin (List.mem_map_of_mem (fun ty => "--hook-type " ++ ty) hty))
  simp only [exec_install_pre_commit_hook, hE, Bool.false_eq_true, if_false] at h
  by_cases hrc :
      ((run ("pre-commit install "
        ++ strJoin (hook_types.map fun ty => "--hook-type " ++ ty))).return_code
        != 0) = true
  · rw [if_pos hrc] at h
    simp only [Except.ok.injEq] at h
    subst h
    have hne0 : (run ("pre-commit install "
        ++ strJoin (hook_types.map fun ty => "--hook-type " ++ ty))).return_code
        ≠ 0 := by
      simpa [bne_iff_ne] using hrc
    exact ⟨strStartsWith_append _ _, hsub,
      by simp [hne0], fun _ => rfl⟩
  · rw [if_neg hrc] at h
    simp only [Except.ok.injEq] at h
    subst h
    have h0 : (run ("pre-commit install "
        ++ strJoin (hook_types.map fun ty => "--hook-type " ++ ty))).return_code
        = 0 := by
      simpa [bne_iff_ne] using hrc
    exact ⟨strStartsWith_append _ _, hsub,
      by simp [h0], fun hc => absurd h0 hc⟩

/-- Witness for C5: both hook types of the wizard, against a failing
subprocess; the theorem's conclusions instantiated and evaluated. -/
theorem exec_install_cmdline_witness :
    strStartsWith "pre-commit install --hook-type commit-msg--hook-type pre-push"
      "pre-commit install " = true ∧
    (∀ ty ∈ (["commit-msg", "pre-push"] : List String),
      strContains "pre-commit install --hook-type commit-msg--hook-type pre-push"
        ("--hook-type " ++ ty) = true) ∧
    ((false : Bool) = true ↔ (1 : Int) = 0) ∧
    ((1 : Int) ≠ 0 →
      (["Error running pre-commit install --hook-type commit-msg--hook-type pre-push. Outputs are attached below:",
        "stdout: boom", "stderr: bad"] : List String)
        = ["Error running pre-commit install --hook-type commit-msg--hook-type pre-push. Outputs are attached below:",
           "stdout: boom", "stderr: bad"]) :=
  exec_install_cmdline (fun _ => ⟨1, "boom", "bad"⟩) ["commit-msg", "pre-push"]
    ⟨"pre-commit install --hook-type commit-msg--hook-type pre-push",
     ["Error running pre-commit install --hook-type commit-msg--hook-type pre-push. Outputs are attached below:",
      "stdout: boom", "stderr: bad"], false⟩
    (by decide) rfl

/-- C8: the bootstrap phase of `Init.__call__` selects the document kind
by substring of the chosen path (`toml` checked first, then `json`, then
`yaml`), and `Init._update_config_file` receives exactly the keys `name`,
`version`, `tag_format` in this order, where `version` is whatever the
external version parser derives from the chosen tag; the spec-modelled
parser strips the prefix, e.g. tag `v2.3.0` yields `"2.3.0"`. -/
theorem bootstrap_kind_and_keys (p n tag fmt : String) (pv : String → String) :
    ((strContains p "toml" = true →
        (init_bootstrap p n tag pv fmt).kind = some ConfigKind.toml) ∧
     (strContains p "toml" = false → strContains p "json" = true →
        (init_bootstrap p n tag pv fmt).kind = some ConfigKind.json) ∧
     (strContains p "toml" = false → strContains p "json" = false →
        strContains p "yaml" = true →
        (init_bootstrap p n tag pv fmt).kind = some ConfigKind.yaml)) ∧
    (init_bootstrap p n tag pv fmt).set_key_trace
      = [("name", n), ("version", pv tag), ("tag_format", fmt)] ∧
    parsePublicVersion "v2.3.0" = some "2.3.0" := by
  refine ⟨⟨?_, ?_, ?_⟩, rfl, rfl⟩
  · intro h
    simp [init_bootstrap, h]
  · intro h1 h2
    simp [init_bootstrap, h1, h2]
  · intro h1 h2 h3
    simp [init_bootstrap, h1, h2, h3]

/-- Witness for C8: the default path `pyproject.toml` and the §8 scenario
tag `v2.3.0` with confirmed format `v$version`. -/
theorem bootstrap_kind_and_keys_witness :
    (init_bootstrap "pyproject.toml" "cz_conventional_commits" "v2.3.0"
      (fun t => (parsePublicVersion t).getD "") "v$version").kind
      = some ConfigKind.toml ∧
    (init_bootstrap "pyproject.toml" "cz_conventional_commits" "v2.3.0"
      (fun t => (parsePublicVersion t).getD "") "v$version").set_key_trace
      = [("name", "cz_conventional_commits"), ("version", "2.3.0"),
         ("tag_format", "v$version")] ∧
    parsePublicVersion "v2.3.0" = some "2.3.0" := by
  have h := bootstrap_kind_and_keys "pyproject.toml" "cz_conventional_commits"
    "v2.3.0" "v$version" (fun t => (parsePublicVersion t).getD "")
  exact ⟨h.1.1 (by decide), h.2.1, h.2.2⟩

/-- C10: hook installation is not atomic with respect to
`.pre-commit-config.yaml` — whenever the merge phase succeeds, the merged
document is already (serialized and) written before the
`shutil.which("pre-commit")` check and before the install invocation, so
with a missing executable, or with an install command that exits non-zero,
the step returns failure while the file holds the merged content. -/
theorem install_writes_before_check (file : HookFile) (entry : Yaml)
    (hook_types : Option (List String)) (run : String → CmdResult)
    (m : MergeResult) (h : mergeHookConfig file entry = .ok m) :
    install_pre_commit_hook file entry hook_types false run = .ok ⟨m.doc, false⟩ ∧
    ((hook_types.getD ["commit-msg", "pre-push"]).isEmpty = false →
      (∀ s, (run s).return_code ≠ 0) →
      install_pre_commit_hook file entry hook_types true run
        = .ok ⟨m.doc, false⟩) := by
  constructor
  · simp [install_pre_commit_hook, h]
  · intro hE hrun
    have hrc : ((run ("pre-commit install "
        ++ strJoin ((hook_types.getD ["commit-msg", "pre-push"]).map
            fun ty => "--hook-type " ++ ty))).return_code != 0) = true := by
      simpa [bne_iff_ne] using hrun _
    have hex : exec_install_pre_commit_hook run
        (hook_types.getD ["commit-msg", "pre-push"])
        = .ok ⟨"pre-commit install "
            ++ strJoin ((hook_types.getD ["commit-msg", "pre-push"]).map
                fun ty => "--hook-type " ++ ty),
          ["Error running "
              ++ ("pre-commit install "
                ++ strJoin ((hook_types.getD ["commit-msg", "pre-push"]).map
                    fun ty => "--hook-type " ++ ty))
              ++ ". Outputs are attached below:",
           "stdout: " ++ (run ("pre-commit install "
              ++ strJoin ((hook_types.getD ["commit-msg", "pre-push"]).map
                  fun ty => "--hook-type " ++ ty))).out,
           "stderr: " ++ (run ("pre-commit install "
              ++ strJoin ((hook_types.getD ["commit-msg", "pre-push"]).map
                  fun ty => "--hook-type " ++ ty))).err], false⟩ := by
      simp only [exec_install_pre_commit_hook, hE, Bool.false_eq_true, if_false,
        hrc, if_true]
    simp [install_pre_commit_hook, h, hex]

/-- Witness for C10: an absent config file; with `pre-commit` missing, and
with a failing install subprocess, the step fails but the merged document
(the fresh canonical one) was written. -/
theorem install_writes_before_check_witness :
    install_pre_commit_hook .absent (cz_hook_config "2.42.0")
      (some ["commit-msg"]) false (fun _ => ⟨1, "boom", "bad"⟩)
      = .ok ⟨[("repos", .list [cz_hook_config "2.42.0"])], false⟩ ∧
    ((some ["commit-msg"] : Option (List String)).getD
        ["commit-msg", "pre-push"]).isEmpty = false ∧
    install_pre_commit_hook .absent (cz_hook_config "2.42.0")
      (some ["commit-msg"]) true (fun _ => ⟨1, "boom", "bad"⟩)
      = .ok ⟨[("repos", .list [cz_hook_config "2.42.0"])], false⟩ := by
  have h := install_writes_before_check .absent (cz_hook_config "2.42.0")
    (some ["commit-msg"]) (fun _ => ⟨1, "boom", "bad"⟩)
    ⟨[("repos", .list [cz_hook_config "2.42.0"])], false⟩ rfl
  exact ⟨h.1, rfl, h.2 rfl (fun _ => one_ne_zero)⟩
